import Mathlib

/-!
Verification of the breez payments reconciliation slice (`payments.go`).

Go strings are byte strings; we model them as `List Nat` (each element one
byte).  The protobuf wire codec used for the structured invoice memo
(`proto.Marshal` / `proto.Unmarshal` on `data.InvoiceMemo`) is modelled from
the protobuf wire format: varint fields, length-delimited fields, unknown
fields skipped, last value wins, proto3 zero values omitted on encode.
-/

abbrev GoStr := List Nat

/-- `data.InvoiceMemo` (messages.proto): field numbers 1..8, proto3 defaults. -/
structure InvoiceMemo where
  description : GoStr := []
  amount : Int := 0
  payeeName : GoStr := []
  payeeImageURL : GoStr := []
  payerName : GoStr := []
  payerImageURL : GoStr := []
  transferRequest : Bool := false
  expiry : Int := 0
deriving DecidableEq

/-- Unsigned LEB128 varint encoding (protobuf base-128 varints). -/
def varintEncode (n : Nat) : List Nat :=
  if n < 128 then [n] else (n % 128 + 128) :: varintEncode (n / 128)
termination_by n
decreasing_by omega

/-- Varint decoding: returns the value and the remaining bytes. -/
def varintDecode : List Nat → Option (Nat × List Nat)
  | [] => none
  | b :: rest =>
    if b < 128 then some (b, rest)
    else match varintDecode rest with
      | some (n, rest2) => some (n * 128 + b % 128, rest2)
      | none => none

/-- Two's-complement reading of a varint value as a Go `int64`. -/
def toI64 (n : Nat) : Int :=
  if n % 18446744073709551616 < 9223372036854775808 then ((n % 18446744073709551616 : Nat) : Int)
  else ((n % 18446744073709551616 : Nat) : Int) - 18446744073709551616

/-- The `uint64` image of a Go `int64` value, as encoded by protobuf. -/
def u64ofI64 (v : Int) : Nat := (v % 18446744073709551616).toNat

/-- Set an `InvoiceMemo` field from a varint value (fields 2, 7, 8);
unknown field numbers and wire-type mismatches are skipped. -/
def setVarintField (num v : Nat) (m : InvoiceMemo) : InvoiceMemo :=
  if num = 2 then { m with amount := toI64 v }
  else if num = 7 then { m with transferRequest := decide (v % 18446744073709551616 ≠ 0) }
  else if num = 8 then { m with expiry := toI64 v }
  else m

/-- Set an `InvoiceMemo` field from a length-delimited value (fields 1, 3..6);
unknown field numbers and wire-type mismatches are skipped. -/
def setBytesField (num : Nat) (s : GoStr) (m : InvoiceMemo) : InvoiceMemo :=
  if num = 1 then { m with description := s }
  else if num = 3 then { m with payeeName := s }
  else if num = 4 then { m with payeeImageURL := s }
  else if num = 5 then { m with payerName := s }
  else if num = 6 then { m with payerImageURL := s }
  else m

/-- The update a single parsed protobuf field performs on the message. -/
inductive FieldUpd where
  | fVarint (num v : Nat)
  | fBytes (num : Nat) (s : GoStr)
  | fSkip
deriving DecidableEq

/-- Parse one protobuf field from the wire: a tag varint, then the payload
according to the wire type (0 varint, 1 fixed64, 2 length-delimited,
5 fixed32).  Field number 0, group wire types and truncated input are
rejected; fixed-width payloads carry no `InvoiceMemo` field and are
skipped. -/
def parseField (bs : List Nat) : Option (FieldUpd × List Nat) :=
  match varintDecode bs with
  | none => none
  | some (tag, r1) =>
    if tag / 8 = 0 then none
    else if tag % 8 = 0 then
      match varintDecode r1 with
      | none => none
      | some (v, r2) => some (.fVarint (tag / 8) v, r2)
    else if tag % 8 = 1 then
      if 8 ≤ r1.length then some (.fSkip, r1.drop 8) else none
    else if tag % 8 = 2 then
      match varintDecode r1 with
      | none => none
      | some (len, r2) =>
        if len ≤ r2.length then some (.fBytes (tag / 8) (r2.take len), r2.drop len) else none
    else if tag % 8 = 5 then
      if 4 ≤ r1.length then some (.fSkip, r1.drop 4) else none
    else none

def applyField : FieldUpd → InvoiceMemo → InvoiceMemo
  | .fVarint num v, m => setVarintField num v m
  | .fBytes num s, m => setBytesField num s m
  | .fSkip, m => m

/-- Protobuf wire-format parsing loop for `InvoiceMemo` (`proto.Unmarshal`).
The fuel argument only bounds the number of parsed fields; each field
consumes at least one byte, so `bs.length` fuel is always enough
(`protoUnmarshalAux_fuel`). -/
def protoUnmarshalAux : Nat → List Nat → InvoiceMemo → Option InvoiceMemo
  | _, [], m => some m
  | 0, _ :: _, _ => none
  | fuel + 1, b :: tl, m =>
    match parseField (b :: tl) with
    | none => none
    | some (fv, rest) => protoUnmarshalAux fuel rest (applyField fv m)

/-- One parsing pass over `bs`, with enough fuel. -/
def protoUnmarshalRun (bs : List Nat) (m : InvoiceMemo) : Option InvoiceMemo :=
  protoUnmarshalAux bs.length bs m

/-- `proto.Unmarshal` into a fresh `data.InvoiceMemo{}`. -/
def protoUnmarshalInvoiceMemo (bs : GoStr) : Option InvoiceMemo :=
  protoUnmarshalRun bs {}

def encTag (num wt : Nat) : List Nat := varintEncode (num * 8 + wt)

/-- Length-delimited field encoding; proto3 omits empty strings. -/
def encBytesField (num : Nat) (s : GoStr) : List Nat :=
  if s = [] then [] else encTag num 2 ++ varintEncode s.length ++ s

def encVarintField (num v : Nat) : List Nat := encTag num 0 ++ varintEncode v

/-- Varint field carrying an `int64`; proto3 omits zero. -/
def encInt64Field (num : Nat) (v : Int) : List Nat :=
  if v = 0 then [] else encVarintField num (u64ofI64 v)

/-- Varint field carrying a `bool`; proto3 omits `false`. -/
def encBoolField (num : Nat) (b : Bool) : List Nat :=
  if b then encVarintField num 1 else []

/-- `proto.Marshal` of a `data.InvoiceMemo`: fields emitted in field-number
order, zero values omitted. -/
def protoMarshalInvoiceMemo (m : InvoiceMemo) : List Nat :=
  encBytesField 1 m.description ++ encInt64Field 2 m.amount ++
  encBytesField 3 m.payeeName ++ encBytesField 4 m.payeeImageURL ++
  encBytesField 5 m.payerName ++ encBytesField 6 m.payerImageURL ++
  encBoolField 7 m.transferRequest ++ encInt64Field 8 m.expiry

/-- `strings.Split(s, " | ")` on byte strings: splits around each
leftmost, non-overlapping occurrence of the bytes `0x20 0x7C 0x20`. -/
def splitBar : List Nat → List (List Nat)
  | 32 :: 124 :: 32 :: rest => [] :: splitBar rest
  | c :: rest =>
    match splitBar rest with
    | [] => [[c]]
    | h :: t => (c :: h) :: t
  | [] => [[]]

/-- `strings.Count(s, " | ")` on byte strings: counts leftmost,
non-overlapping occurrences of the bytes `0x20 0x7C 0x20`. -/
def countBar : List Nat → Nat
  | 32 :: 124 :: 32 :: rest => countBar rest + 1
  | _ :: rest => countBar rest
  | [] => 0

/-! ## Data model of `payments.go` and its RPC surface -/

/-- `paymentType` constants from payments.go (sentPayment = 0, etc.). -/
inductive paymentType where
  | sentPayment
  | receivedPayment
  | depositPayment
  | withdrawalPayment
deriving DecidableEq

open paymentType

/-- The persisted `paymentInfo` record (payments.go).  The Go field `Type`
is a Lean keyword and is called `typ` here. -/
structure paymentInfo where
  typ : paymentType
  Amount : Int := 0
  CreationTimestamp : Int := 0
  Description : GoStr := []
  PayeeName : GoStr := []
  PayeeImageURL : GoStr := []
  PayerName : GoStr := []
  PayerImageURL : GoStr := []
  TransferRequest : Bool := false
  PaymentHash : GoStr := []
  RedeemTxID : GoStr := []
  Destination : GoStr := []
  PendingExpirationHeight : Nat := 0
  PendingExpirationTimestamp : Int := 0
deriving DecidableEq

/-- The fields of `lnrpc.PayReq` consumed by payments.go. -/
structure PayReq where
  destination : GoStr := []
  paymentHash : GoStr := []
  numSatoshis : Int := 0
  timestamp : Int := 0
  description : GoStr := []
deriving DecidableEq

/-- The fields of `lnrpc.Payment` consumed by payments.go. -/
structure LnPayment where
  paymentHash : GoStr := []
  value : Int := 0
  creationDate : Int := 0
deriving DecidableEq

/-- The fields of `lnrpc.Invoice` consumed by payments.go. -/
structure LnInvoice where
  paymentRequest : GoStr := []
  amtPaidSat : Int := 0
  settled : Bool := false
  settleDate : Int := 0
  settleIndex : Nat := 0
  rHash : GoStr := []
deriving DecidableEq

/-- The fields of `lnrpc.HTLC` consumed by payments.go. -/
structure HTLC where
  incoming : Bool := false
  amount : Int := 0
  hashLock : GoStr := []
  expirationHeight : Nat := 0
deriving DecidableEq

/-- A channel as consumed by payments.go: only its pending HTLCs. -/
structure LnChannel where
  pendingHtlcs : List HTLC := []
deriving DecidableEq

/-- The fields of `lnrpc.GetInfoResponse` consumed by payments.go. -/
structure ChainInfo where
  blockHeight : Nat := 0
deriving DecidableEq

/-- The app configuration consumed by payments.go. -/
structure Config where
  routingNodePubKey : GoStr := []
deriving DecidableEq

/-- Results of the RPC and local-store calls payments.go makes.  Each is an
oracle: the calls are external collaborators (lightning node, bolt-key
store), so a run of the code is parameterised by their results.
`fetchPaymentRequest` returns `none` for a Go nil byte slice. -/
structure LnEnv where
  decodePayReq : GoStr → Except String PayReq
  fetchPaymentRequest : GoStr → Except String (Option GoStr)
  listPayments : Except String (List LnPayment)
  listChannels : Except String (List LnChannel)
  getInfo : Except String ChainInfo
  lookupInvoice : GoStr → Except String LnInvoice

deriving instance DecidableEq for Except

/-- Outcome of running a Go function that can also crash on a nil
dereference. -/
inductive GoOutcome (α : Type) where
  | ok (a : α)
  | err (e : String)
  | nilDeref
deriving DecidableEq

/-- `hex.EncodeToString` on a byte string (lowercase hex digits). -/
def hexDigit (n : Nat) : Nat := if n < 10 then 48 + n else 87 + n

def hexEncode : GoStr → GoStr
  | [] => []
  | b :: rest => hexDigit (b % 256 / 16) :: hexDigit (b % 256 % 16) :: hexEncode rest

/-! ## The functions of payments.go -/

/-- The pure core of `DecodePaymentRequest` (payments.go:196-212), applied to
the `Description` and `NumSatoshis` of the already-decoded payment request:
try `proto.Unmarshal` first; on failure fall back to the
`description | payee | logo` split when `strings.Count(d, " | ") == 2`, else
treat the whole text as the description; in both fallback branches the
amount is the invoice's own `NumSatoshis`. -/
def decodePaymentRequestCore (description : GoStr) (numSatoshis : Int) : InvoiceMemo :=
  match protoUnmarshalInvoiceMemo description with
  | some invoiceMemo => invoiceMemo
  | none =>
    if countBar description = 2 then
      { description := (splitBar description).getD 0 [],
        payeeName := (splitBar description).getD 1 [],
        payeeImageURL := (splitBar description).getD 2 [],
        amount := numSatoshis }
    else
      { description := description, amount := numSatoshis }

/-- `DecodePaymentRequest` (payments.go:189-213): decode the payment request
via the node RPC, then decode its description into an `InvoiceMemo`. -/
def DecodePaymentRequest (env : LnEnv) (paymentRequest : GoStr) :
    Except String InvoiceMemo :=
  match env.decodePayReq paymentRequest with
  | .error e => .error e
  | .ok decodedPayReq =>
    .ok (decodePaymentRequestCore decodedPayReq.description decodedPayReq.numSatoshis)

/-- The `data.Invoice` view returned by `GetRelatedInvoice`. -/
structure DataInvoice where
  memo : InvoiceMemo
  amtPaid : Int := 0
  settled : Bool := false
deriving DecidableEq

/-- The error `proto.Unmarshal` reports for undecodable input (its exact
message is irrelevant; payments.go returns it verbatim). -/
def protoUnmarshalErrMsg : String := "proto: cannot parse invalid wire-format data"

/-- `GetRelatedInvoice` (payments.go:218-241): decode the payment request,
`proto.Unmarshal` its description with NO legacy fallback (an undecodable
description is an error), then look up the invoice by payment hash. -/
def GetRelatedInvoice (env : LnEnv) (paymentRequest : GoStr) :
    Except String DataInvoice :=
  match env.decodePayReq paymentRequest with
  | .error e => .error e
  | .ok decodedPayReq =>
    match protoUnmarshalInvoiceMemo decodedPayReq.description with
    | none => .error protoUnmarshalErrMsg
    | some invoiceMemo =>
      match env.lookupInvoice decodedPayReq.paymentHash with
      | .error e => .error e
      | .ok lookup =>
        .ok { memo := invoiceMemo, amtPaid := lookup.amtPaidSat, settled := lookup.settled }

/-- `onNewSentPayment` (payments.go:377-419).  Returns the `paymentInfo`
record passed to `addAccountPayment`.  The memo is decoded only when the
stored payment request is non-nil and non-empty; the record construction
reads `invoiceMemo.Description` through that possibly-nil pointer. -/
def onNewSentPayment (env : LnEnv) (cfg : Config) (paymentItem : LnPayment) :
    GoOutcome paymentInfo :=
  match env.fetchPaymentRequest paymentItem.paymentHash with
  | .error e => .err e
  | .ok paymentRequestOpt =>
    let paymentRequest := paymentRequestOpt.getD []
    let memoStep : Except String (Option InvoiceMemo) :=
      if paymentRequestOpt ≠ none ∧ 0 < paymentRequest.length then
        (DecodePaymentRequest env paymentRequest).map some
      else .ok none
    match memoStep with
    | .error e => .err e
    | .ok invoiceMemoOpt =>
      match env.decodePayReq paymentRequest with
      | .error e => .err e
      | .ok decodedReq =>
        let ptype := if decodedReq.destination = cfg.routingNodePubKey
          then withdrawalPayment else sentPayment
        match invoiceMemoOpt with
        | none => .nilDeref
        | some invoiceMemo =>
          .ok { typ := ptype,
                Amount := paymentItem.value,
                CreationTimestamp := paymentItem.creationDate,
                Description := invoiceMemo.description,
                PayeeImageURL := invoiceMemo.payeeImageURL,
                PayeeName := invoiceMemo.payeeName,
                PayerImageURL := invoiceMemo.payerImageURL,
                PayerName := invoiceMemo.payerName,
                TransferRequest := invoiceMemo.transferRequest,
                PaymentHash := decodedReq.paymentHash,
                Destination := decodedReq.destination }

/-- The loop body of `syncSentPayments` (payments.go:278-284): skip items at
or before the cursor; process the rest with `onNewSentPayment`, whose error
result is DISCARDED by the caller (the loop continues).  Returns the list of
records persisted by the pass, in order. -/
def syncSentPaymentsLoop (env : LnEnv) (cfg : Config) (lastPaymentTime : Int) :
    List LnPayment → List paymentInfo → GoOutcome (List paymentInfo)
  | [], acc => .ok acc
  | paymentItem :: rest, acc =>
    if paymentItem.creationDate ≤ lastPaymentTime then
      syncSentPaymentsLoop env cfg lastPaymentTime rest acc
    else
      match onNewSentPayment env cfg paymentItem with
      | .nilDeref => .nilDeref
      | .err _ => syncSentPaymentsLoop env cfg lastPaymentTime rest acc
      | .ok r => syncSentPaymentsLoop env cfg lastPaymentTime rest (acc ++ [r])

/-- `syncSentPayments` (payments.go:271-289): fetch the full outbound
ledger, then run the loop against the stored cursor. -/
def syncSentPayments (env : LnEnv) (cfg : Config) (lastPaymentTime : Int) :
    GoOutcome (List paymentInfo) :=
  match env.listPayments with
  | .error e => .err e
  | .ok lightningPayments => syncSentPaymentsLoop env cfg lastPaymentTime lightningPayments []

/-- `onNewReceivedPayment` (payments.go:421-460).  The memo pointer is
assigned only when the invoice carries a non-empty payment request, yet
`invoiceMemo.TransferRequest` is read unconditionally: an empty payment
request is a nil dereference. -/
def onNewReceivedPayment (env : LnEnv) (invoice : LnInvoice) : GoOutcome paymentInfo :=
  let memoStep : Except String (Option InvoiceMemo) :=
    if 0 < invoice.paymentRequest.length then
      (DecodePaymentRequest env invoice.paymentRequest).map some
    else .ok none
  match memoStep with
  | .error e => .err e
  | .ok none => .nilDeref
  | .ok (some invoiceMemo) =>
    let ptype := if invoiceMemo.transferRequest then depositPayment else receivedPayment
    .ok { typ := ptype,
          Amount := invoice.amtPaidSat,
          CreationTimestamp := invoice.settleDate,
          Description := invoiceMemo.description,
          PayeeImageURL := invoiceMemo.payeeImageURL,
          PayeeName := invoiceMemo.payeeName,
          PayerImageURL := invoiceMemo.payerImageURL,
          PayerName := invoiceMemo.payerName,
          TransferRequest := invoiceMemo.transferRequest,
          PaymentHash := hexEncode invoice.rHash }

/-- Go signed-64-bit wraparound of an integer product or sum. -/
def wrap64 (x : Int) : Int :=
  (x + 9223372036854775808) % 18446744073709551616 - 9223372036854775808

/-- `(htlc.ExpirationHeight - currentBlockHeight) * 10` computed in Go
`uint32` arithmetic (payments.go:343): modular subtraction, then modular
multiplication by 10. -/
def minutesToExpireU32 (expirationHeight currentBlockHeight : Nat) : Nat :=
  (expirationHeight + 4294967296 - currentBlockHeight) % 4294967296 * 10 % 4294967296

/-- Nanoseconds added to `time.Now()` by payments.go:349:
`minutesToExpire * time.Minute` in wrapping `int64` (`time.Duration`)
arithmetic; `time.Minute` is 60e9 nanoseconds. -/
def pendingOffsetNanos (expirationHeight currentBlockHeight : Nat) : Int :=
  wrap64 ((minutesToExpireU32 expirationHeight currentBlockHeight : Int) * 60000000000)

/-- The payment-request resolution step of `createPendingPayment`
(payments.go:326-341): incoming HTLCs look the invoice up by hash lock,
outgoing ones fetch the stored outgoing request text (Go `string(nil)` is
the empty string). -/
def resolvePayReq (env : LnEnv) (htlc : HTLC) : Except String GoStr :=
  if htlc.incoming then
    (env.lookupInvoice htlc.hashLock).map (·.paymentRequest)
  else
    (env.fetchPaymentRequest htlc.hashLock).map (fun o => o.getD [])

/-- The `paymentInfo` built by `createPendingPayment` before any decoded
metadata is filled in (payments.go:344-350). -/
def basePendingPayment (htlc : HTLC) (currentBlockHeight : Nat) (nowNanos : Int) : paymentInfo :=
  { typ := if htlc.incoming then receivedPayment else sentPayment,
    Amount := htlc.amount,
    CreationTimestamp := nowNanos / 1000000000,
    PendingExpirationHeight := htlc.expirationHeight,
    PendingExpirationTimestamp :=
      (nowNanos + pendingOffsetNanos htlc.expirationHeight currentBlockHeight) / 1000000000 }

/-- `createPendingPayment` (payments.go:320-375).  `nowNanos` is the current
wall clock in nanoseconds since the Unix epoch; `time.Time.Unix()` is
floor-division by 1e9. -/
def createPendingPayment (env : LnEnv) (htlc : HTLC) (currentBlockHeight : Nat)
    (nowNanos : Int) : Except String paymentInfo :=
  match resolvePayReq env htlc with
  | .error e => .error e
  | .ok paymentRequest =>
    if paymentRequest ≠ [] then
      match env.decodePayReq paymentRequest with
      | .error e => .error e
      | .ok decodedReq =>
        match DecodePaymentRequest env paymentRequest with
        | .error e => .error e
        | .ok invoiceMemo =>
          .ok { basePendingPayment htlc currentBlockHeight nowNanos with
                Description := invoiceMemo.description,
                PayeeImageURL := invoiceMemo.payeeImageURL,
                PayeeName := invoiceMemo.payeeName,
                PayerImageURL := invoiceMemo.payerImageURL,
                PayerName := invoiceMemo.payerName,
                TransferRequest := invoiceMemo.transferRequest,
                PaymentHash := decodedReq.paymentHash,
                Destination := decodedReq.destination,
                CreationTimestamp := decodedReq.timestamp }
    else .ok (basePendingPayment htlc currentBlockHeight nowNanos)

/-- The nested channel/HTLC loop of `getPendingPayments`
(payments.go:306-314), flattened over the channels list: resolve each HTLC
in order and abort the whole computation on the first failure. -/
def resolvePendingList (env : LnEnv) (height : Nat) (nowNanos : Int) :
    List HTLC → Except String (List paymentInfo)
  | [] => .ok []
  | htlc :: rest =>
    match createPendingPayment env htlc height nowNanos with
    | .error e => .error e
    | .ok pendingItem =>
      match resolvePendingList env height nowNanos rest with
      | .error e => .error e
      | .ok ps => .ok (pendingItem :: ps)

/-- `getPendingPayments` (payments.go:291-318): when the daemon is not ready
return an empty list with no error and perform no lookups; otherwise list
channels and chain info, and resolve every pending HTLC of every channel,
aborting the whole call on the first failure. -/
def getPendingPayments (env : LnEnv) (daemonReady : Bool) (nowNanos : Int) :
    Except String (List paymentInfo) :=
  if daemonReady then
    match env.listChannels with
    | .error e => .error e
    | .ok channelsRes =>
      match env.getInfo with
      | .error e => .error e
      | .ok chainInfo =>
        resolvePendingList env chainInfo.blockHeight nowNanos
          ((channelsRes.map (·.pendingHtlcs)).flatten)
  else .ok []

/-- `data.Payment.PaymentType` (messages.proto). -/
inductive DataPaymentType where
  | DEPOSIT
  | WITHDRAWAL
  | SENT
  | RECEIVED
deriving DecidableEq

/-- The caller-facing `data.Payment` view built by `GetPayments`. -/
structure DataPayment where
  ptype : DataPaymentType
  amount : Int := 0
  creationTimestamp : Int := 0
  redeemTxID : GoStr := []
  paymentHash : GoStr := []
  destination : GoStr := []
  invoiceMemo : InvoiceMemo := {}
  pendingExpirationHeight : Nat := 0
  pendingExpirationTimestamp : Int := 0
deriving DecidableEq

/-- The per-record mapping of `GetPayments` (payments.go:74-105). -/
def toDataPayment (payment : paymentInfo) : DataPayment :=
  { ptype := match payment.typ with
      | sentPayment => .SENT
      | receivedPayment => .RECEIVED
      | depositPayment => .DEPOSIT
      | withdrawalPayment => .WITHDRAWAL,
    amount := payment.Amount,
    creationTimestamp := payment.CreationTimestamp,
    redeemTxID := payment.RedeemTxID,
    paymentHash := payment.PaymentHash,
    destination := payment.Destination,
    invoiceMemo := { description := payment.Description,
                     amount := payment.Amount,
                     payeeImageURL := payment.PayeeImageURL,
                     payeeName := payment.PayeeName,
                     payerImageURL := payment.PayerImageURL,
                     payerName := payment.PayerName,
                     transferRequest := payment.TransferRequest },
    pendingExpirationHeight := payment.PendingExpirationHeight,
    pendingExpirationTimestamp := payment.PendingExpirationTimestamp }

/-- `GetPayments` (payments.go:61-113): persisted records (from the store,
passed in as `persisted`) plus the pending ones, mapped to the caller view
and sorted by creation timestamp, most recent first (`sort.Slice` with
`CreationTimestamp >`; modelled by a mergesort with the matching
non-strict comparator — the Go sort is unstable and ties are unspecified). -/
def GetPayments (env : LnEnv) (daemonReady : Bool) (nowNanos : Int)
    (persisted : List paymentInfo) : Except String (List DataPayment) :=
  match getPendingPayments env daemonReady nowNanos with
  | .error e => .error e
  | .ok pendingPayments =>
    let rawPayments := persisted ++ pendingPayments
    let paymentsList := rawPayments.map toDataPayment
    .ok (paymentsList.mergeSort (fun i j => decide (j.creationTimestamp ≤ i.creationTimestamp)))

/-- A description that is not protobuf-decodable and contains exactly two
occurrences of the delimiter: the bytes of `x | y | z`. -/
def strBarBar : GoStr := [120, 32, 124, 32, 121, 32, 124, 32, 122]

/-- An environment in which every RPC succeeds trivially. -/
def envOkAll : LnEnv :=
  { decodePayReq := fun _ => .ok {},
    fetchPaymentRequest := fun _ => .ok (some [9]),
    listPayments := .ok [],
    listChannels := .ok [],
    getInfo := .ok {},
    lookupInvoice := fun _ => .ok {} }

/-- Environment for the C5 counterexample: the stored payment request of the
first ledger item cannot be fetched; everything else succeeds, with an empty
(structurally decodable) description. -/
def envC5 : LnEnv :=
  { decodePayReq := fun _ => .ok { destination := [7], paymentHash := [8] },
    fetchPaymentRequest := fun h => if h = [1] then .error "rpc" else .ok (some [9]),
    listPayments := .ok [{ paymentHash := [1], value := 10, creationDate := 5 },
                         { paymentHash := [2], value := 20, creationDate := 6 }],
    listChannels := .ok [],
    getInfo := .ok {},
    lookupInvoice := fun _ => .ok {} }

/-- An environment whose invoice lookup succeeds with an empty payment
request: `createPendingPayment` then takes its metadata-free path. -/
def envPending : LnEnv :=
  { decodePayReq := fun _ => .ok {},
    fetchPaymentRequest := fun _ => .ok none,
    listPayments := .ok [],
    listChannels := .ok [],
    getInfo := .ok {},
    lookupInvoice := fun _ => .ok {} }

/-- An environment with one channel holding one incoming HTLC whose invoice
lookup fails. -/
def envC7 : LnEnv :=
  { decodePayReq := fun _ => .ok {},
    fetchPaymentRequest := fun _ => .ok none,
    listPayments := .ok [],
    listChannels := .ok [{ pendingHtlcs := [{ incoming := true, hashLock := [1] }] }],
    getInfo := .ok {},
    lookupInvoice := fun _ => .error "lookup failed" }

/-- An environment whose payment-request decode yields the undecodable
legacy description `x | y | z`. -/
def envLegacyDesc : LnEnv :=
  { decodePayReq := fun _ => .ok { description := strBarBar },
    fetchPaymentRequest := fun _ => .ok none,
    listPayments := .ok [],
    listChannels := .ok [],
    getInfo := .ok {},
    lookupInvoice := fun _ => .ok {} }

/-! ## Theorems -/

theorem varintEncode_ne_nil (n : Nat) : varintEncode n ≠ [] := by
  rw [varintEncode]; split <;> simp

theorem varint_rt (n : Nat) : ∀ rest, varintDecode (varintEncode n ++ rest) = some (n, rest) := by
  induction n using Nat.strong_induction_on with
  | _ n ih =>
    intro rest
    rw [varintEncode]
    split
    · simp [varintDecode]
      omega
    · rename_i h
      simp only [List.cons_append, varintDecode, List.append_eq]
      rw [if_neg (by omega)]
      rw [ih (n / 128) (by omega)]
      simp
      omega

theorem varintDecode_shrink : ∀ (bs r : List Nat) (n : Nat),
    varintDecode bs = some (n, r) → r.length < bs.length := by
  intro bs
  induction bs with
  | nil => intro r n h; simp [varintDecode] at h
  | cons b rest ih =>
    intro r n h
    simp only [varintDecode] at h
    by_cases hb : b < 128
    · rw [if_pos hb] at h
      simp at h
      obtain ⟨-, h2⟩ := h
      subst h2
      simp
    · rw [if_neg hb] at h
      cases hv : varintDecode rest with
      | none => rw [hv] at h; cases h
      | some p =>
        obtain ⟨n2, r2⟩ := p
        rw [hv] at h
        simp at h
        obtain ⟨-, h2⟩ := h
        rw [← h2]
        have := ih r2 n2 hv
        simp
        omega

theorem parseField_shrink : ∀ (bs rest : List Nat) (fv : FieldUpd),
    parseField bs = some (fv, rest) → rest.length < bs.length := by
  intro bs rest fv h
  unfold parseField at h
  cases hv : varintDecode bs with
  | none => rw [hv] at h; cases h
  | some p =>
    obtain ⟨tag, r1⟩ := p
    have hr1 := varintDecode_shrink _ _ _ hv
    rw [hv] at h
    dsimp only at h
    split_ifs at h
    · cases hv2 : varintDecode r1 with
      | none => rw [hv2] at h; cases h
      | some q =>
        obtain ⟨v, r2⟩ := q
        have hr2 := varintDecode_shrink _ _ _ hv2
        rw [hv2] at h
        simp at h
        obtain ⟨-, h2⟩ := h
        rw [← h2]
        omega
    · simp at h
      obtain ⟨-, h2⟩ := h
      rw [← h2]
      have : (r1.drop 8).length ≤ r1.length := by simp
      omega
    · cases hv2 : varintDecode r1 with
      | none => rw [hv2] at h; cases h
      | some q =>
        obtain ⟨len, r2⟩ := q
        have hr2 := varintDecode_shrink _ _ _ hv2
        rw [hv2] at h
        simp at h
        obtain ⟨-, -, h2⟩ := h
        rw [← h2]
        have : (r2.drop len).length ≤ r2.length := by simp
        omega
    · simp at h
      obtain ⟨-, h2⟩ := h
      rw [← h2]
      have : (r1.drop 4).length ≤ r1.length := by simp
      omega

theorem parseField_nil : parseField [] = none := rfl

theorem protoUnmarshalAux_nil (f : Nat) (m : InvoiceMemo) :
    protoUnmarshalAux f [] m = some m := by
  cases f <;> rfl

theorem protoUnmarshalAux_fuel : ∀ f1 : Nat, ∀ bs : List Nat, ∀ m : InvoiceMemo, ∀ f2 : Nat,
    bs.length ≤ f1 → bs.length ≤ f2 →
    protoUnmarshalAux f1 bs m = protoUnmarshalAux f2 bs m := by
  intro f1
  induction f1 using Nat.strong_induction_on with
  | _ f1 ih =>
    intro bs m f2 h1 h2
    match bs with
    | [] => rw [protoUnmarshalAux_nil, protoUnmarshalAux_nil]
    | b :: tl =>
      simp only [List.length_cons] at h1 h2
      match f1, f2 with
      | f1 + 1, f2 + 1 =>
        simp only [protoUnmarshalAux]
        cases hp : parseField (b :: tl) with
        | none => rfl
        | some q =>
          obtain ⟨fv, rest⟩ := q
          have hsh := parseField_shrink _ _ _ hp
          simp only [List.length_cons] at hsh
          exact ih f1 (by omega) rest _ f2 (by omega) (by omega)

theorem protoUnmarshalRun_step (bs rest : List Nat) (fv : FieldUpd) (m : InvoiceMemo)
    (hp : parseField bs = some (fv, rest)) :
    protoUnmarshalRun bs m = protoUnmarshalRun rest (applyField fv m) := by
  cases bs with
  | nil => rw [parseField_nil] at hp; cases hp
  | cons b tl =>
    have hsh := parseField_shrink _ _ _ hp
    simp only [List.length_cons] at hsh
    unfold protoUnmarshalRun
    simp only [List.length_cons, protoUnmarshalAux, hp]
    exact protoUnmarshalAux_fuel tl.length rest _ rest.length (by omega) (by omega)

theorem protoUnmarshalRun_nil (m : InvoiceMemo) : protoUnmarshalRun [] m = some m := rfl

theorem parseField_varint (num v : Nat) (rest : List Nat) (hnum : 0 < num) :
    parseField (encVarintField num v ++ rest) = some (.fVarint num v, rest) := by
  unfold parseField encVarintField encTag
  rw [List.append_assoc, varint_rt]
  dsimp only
  rw [if_neg (by omega), if_pos (by omega)]
  rw [varint_rt]
  dsimp only
  have h8 : (num * 8 + 0) / 8 = num := by omega
  rw [h8]

theorem parseField_bytes (num : Nat) (s : GoStr) (rest : List Nat) (hnum : 0 < num) :
    parseField (encTag num 2 ++ (varintEncode s.length ++ (s ++ rest))) =
      some (.fBytes num s, rest) := by
  unfold parseField encTag
  rw [varint_rt]
  dsimp only
  rw [if_neg (by omega), if_neg (by omega), if_neg (by omega), if_pos (by omega)]
  rw [varint_rt]
  dsimp only
  rw [if_pos (by simp)]
  rw [List.take_left, List.drop_left]
  have h8 : (num * 8 + 2) / 8 = num := by omega
  rw [h8]

theorem run_encVarint (num v : Nat) (rest : List Nat) (m : InvoiceMemo) (hnum : 0 < num) :
    protoUnmarshalRun (encVarintField num v ++ rest) m =
      protoUnmarshalRun rest (setVarintField num v m) :=
  protoUnmarshalRun_step _ _ _ _ (parseField_varint num v rest hnum)

theorem run_encBytes_opt (num : Nat) (s : GoStr) (rest : List Nat) (m : InvoiceMemo)
    (hnum : 0 < num) :
    protoUnmarshalRun (encBytesField num s ++ rest) m =
      protoUnmarshalRun rest (if s = [] then m else setBytesField num s m) := by
  by_cases hs : s = []
  · simp [encBytesField, hs]
  · rw [if_neg hs]
    unfold encBytesField
    rw [if_neg hs, List.append_assoc, List.append_assoc]
    exact protoUnmarshalRun_step _ _ _ _ (parseField_bytes num s rest hnum)

theorem run_encInt64_opt (num : Nat) (v : Int) (rest : List Nat) (m : InvoiceMemo)
    (hnum : 0 < num) :
    protoUnmarshalRun (encInt64Field num v ++ rest) m =
      protoUnmarshalRun rest (if v = 0 then m else setVarintField num (u64ofI64 v) m) := by
  by_cases hv : v = 0
  · simp [encInt64Field, hv]
  · rw [if_neg hv]
    unfold encInt64Field
    rw [if_neg hv]
    exact run_encVarint num (u64ofI64 v) rest m hnum

theorem run_encBool_opt (num : Nat) (b : Bool) (rest : List Nat) (m : InvoiceMemo)
    (hnum : 0 < num) :
    protoUnmarshalRun (encBoolField num b ++ rest) m =
      protoUnmarshalRun rest (if b then setVarintField num 1 m else m) := by
  cases b
  · simp [encBoolField]
  · simp only [encBoolField, if_pos trivial]
    exact run_encVarint num 1 rest m hnum

theorem toI64_u64ofI64 (v : Int) (h1 : -9223372036854775808 ≤ v)
    (h2 : v < 9223372036854775808) : toI64 (u64ofI64 v) = v := by
  unfold toI64 u64ofI64
  split <;> omega

theorem ite_field1 (s : GoStr) (acc : InvoiceMemo) (h : acc.description = []) :
    (if s = [] then acc else setBytesField 1 s acc) = { acc with description := s } := by
  unfold setBytesField
  split <;> cases acc <;> simp_all

theorem ite_field3 (s : GoStr) (acc : InvoiceMemo) (h : acc.payeeName = []) :
    (if s = [] then acc else setBytesField 3 s acc) = { acc with payeeName := s } := by
  unfold setBytesField
  split <;> cases acc <;> simp_all

theorem ite_field4 (s : GoStr) (acc : InvoiceMemo) (h : acc.payeeImageURL = []) :
    (if s = [] then acc else setBytesField 4 s acc) = { acc with payeeImageURL := s } := by
  unfold setBytesField
  split <;> cases acc <;> simp_all

theorem ite_field5 (s : GoStr) (acc : InvoiceMemo) (h : acc.payerName = []) :
    (if s = [] then acc else setBytesField 5 s acc) = { acc with payerName := s } := by
  unfold setBytesField
  split <;> cases acc <;> simp_all

theorem ite_field6 (s : GoStr) (acc : InvoiceMemo) (h : acc.payerImageURL = []) :
    (if s = [] then acc else setBytesField 6 s acc) = { acc with payerImageURL := s } := by
  unfold setBytesField
  split <;> cases acc <;> simp_all

theorem ite_field2 (v : Int) (acc : InvoiceMemo) (h : acc.amount = 0)
    (h1 : -9223372036854775808 ≤ v) (h2 : v < 9223372036854775808) :
    (if v = 0 then acc else setVarintField 2 (u64ofI64 v) acc) = { acc with amount := v } := by
  split
  · cases acc; simp_all
  · simp [setVarintField, toI64_u64ofI64 v h1 h2]

theorem ite_field8 (v : Int) (acc : InvoiceMemo) (h : acc.expiry = 0)
    (h1 : -9223372036854775808 ≤ v) (h2 : v < 9223372036854775808) :
    (if v = 0 then acc else setVarintField 8 (u64ofI64 v) acc) = { acc with expiry := v } := by
  split
  · cases acc; simp_all
  · simp [setVarintField, toI64_u64ofI64 v h1 h2]

theorem ite_field7 (b : Bool) (acc : InvoiceMemo) (h : acc.transferRequest = false) :
    (if b then setVarintField 7 1 acc else acc) = { acc with transferRequest := b } := by
  cases b
  · cases acc; simp_all
  · simp [setVarintField]

/-- Protobuf round trip on `data.InvoiceMemo`: unmarshalling the marshalled
bytes of a memo whose `int64` fields are in range recovers the memo. -/
theorem protoRoundTrip (m : InvoiceMemo)
    (ha1 : -9223372036854775808 ≤ m.amount) (ha2 : m.amount < 9223372036854775808)
    (he1 : -9223372036854775808 ≤ m.expiry) (he2 : m.expiry < 9223372036854775808) :
    protoUnmarshalInvoiceMemo (protoMarshalInvoiceMemo m) = some m := by
  obtain ⟨d, a, pn, piu, prn, priu, tr, ex⟩ := m
  dsimp only at ha1 ha2 he1 he2 ⊢
  unfold protoUnmarshalInvoiceMemo protoMarshalInvoiceMemo
  dsimp only
  simp only [List.append_assoc]
  rw [show encInt64Field 8 ex = encInt64Field 8 ex ++ [] by simp]
  rw [run_encBytes_opt 1 _ _ _ (by norm_num), ite_field1 _ _ rfl]
  rw [run_encInt64_opt 2 _ _ _ (by norm_num), ite_field2 _ _ rfl ha1 ha2]
  rw [run_encBytes_opt 3 _ _ _ (by norm_num), ite_field3 _ _ rfl]
  rw [run_encBytes_opt 4 _ _ _ (by norm_num), ite_field4 _ _ rfl]
  rw [run_encBytes_opt 5 _ _ _ (by norm_num), ite_field5 _ _ rfl]
  rw [run_encBytes_opt 6 _ _ _ (by norm_num), ite_field6 _ _ rfl]
  rw [run_encBool_opt 7 _ _ _ (by norm_num), ite_field7 _ _ rfl]
  rw [run_encInt64_opt 8 _ _ _ (by norm_num), ite_field8 _ _ rfl he1 he2]
  rw [protoUnmarshalRun_nil]

theorem splitBar_ne_nil (s : List Nat) : splitBar s ≠ [] := by
  induction s using splitBar.induct <;> simp_all [splitBar]

theorem splitBar_length (s : List Nat) : (splitBar s).length = countBar s + 1 := by
  induction s using splitBar.induct <;> simp_all [splitBar, countBar]

/-- **C1** — For every description text on which `proto.Unmarshal` fails:
if the text contains exactly two occurrences of `" | "` the decode splits it
into exactly three fields (description, payeeName, payeeImageURL); otherwise
the whole text becomes the free-form description; and in both fallback cases
the memo amount is the invoice's own `NumSatoshis`, never parsed from the
text. -/
theorem c1_memo_fallback (description : GoStr) (numSatoshis : Int)
    (hfail : protoUnmarshalInvoiceMemo description = none) :
    (countBar description = 2 →
      ∃ a b c, splitBar description = [a, b, c] ∧
        decodePaymentRequestCore description numSatoshis =
          { description := a, payeeName := b, payeeImageURL := c,
            amount := numSatoshis }) ∧
    (countBar description ≠ 2 →
      decodePaymentRequestCore description numSatoshis =
        { description := description, amount := numSatoshis }) ∧
    (decodePaymentRequestCore description numSatoshis).amount = numSatoshis := by
  unfold decodePaymentRequestCore
  rw [hfail]
  refine ⟨?_, ?_, ?_⟩
  · intro hc
    have hlen := splitBar_length description
    rw [hc] at hlen
    obtain ⟨a, b, c, habc⟩ := List.length_eq_three.mp hlen
    refine ⟨a, b, c, habc, ?_⟩
    rw [if_pos hc, habc]
    rfl
  · intro hc
    rw [if_neg hc]
  · by_cases hc : countBar description = 2
    · rw [if_pos hc]
    · rw [if_neg hc]

theorem c1_memo_fallback_witness :
    countBar strBarBar = 2 ∧
    (decodePaymentRequestCore strBarBar 7).amount = 7 :=
  ⟨by decide, (c1_memo_fallback strBarBar 7 (by decide)).2.2⟩

/-- **C2** — A synchronized sent payment is classified `Withdrawal` exactly
when the decoded destination equals the configured routing-node key, else
`Sent`; a settled invoice is classified `Deposit` exactly when the decoded
memo's transferRequest flag is set, else `Received`. -/
theorem c2_classification (env : LnEnv) (cfg : Config) (paymentItem : LnPayment)
    (invoice : LnInvoice) (req : GoStr) (dr pr2 : PayReq)
    (h1 : env.fetchPaymentRequest paymentItem.paymentHash = .ok (some req))
    (h2 : req ≠ [])
    (h3 : env.decodePayReq req = .ok dr)
    (h4 : invoice.paymentRequest ≠ [])
    (h5 : env.decodePayReq invoice.paymentRequest = .ok pr2) :
    (∃ r, onNewSentPayment env cfg paymentItem = .ok r ∧
      r.typ = (if dr.destination = cfg.routingNodePubKey
               then paymentType.withdrawalPayment else paymentType.sentPayment)) ∧
    (∃ r2, onNewReceivedPayment env invoice = .ok r2 ∧
      r2.typ = (if (decodePaymentRequestCore pr2.description pr2.numSatoshis).transferRequest
                then paymentType.depositPayment else paymentType.receivedPayment)) := by
  constructor
  · unfold onNewSentPayment
    rw [h1]
    have hlen : 0 < req.length := List.length_pos.mpr h2
    simp only [Option.getD]
    rw [if_pos ⟨by simp, hlen⟩]
    unfold DecodePaymentRequest
    rw [h3]
    simp only [Except.map]
    exact ⟨_, rfl, rfl⟩
  · unfold onNewReceivedPayment
    have hlen : 0 < invoice.paymentRequest.length := List.length_pos.mpr h4
    rw [if_pos hlen]
    unfold DecodePaymentRequest
    rw [h5]
    simp only [Except.map]
    exact ⟨_, rfl, rfl⟩

theorem c2_classification_witness :
    (∃ r, onNewSentPayment envOkAll { routingNodePubKey := [3] } { paymentHash := [2] } = .ok r ∧
      r.typ = (if ([] : GoStr) = [3] then paymentType.withdrawalPayment
               else paymentType.sentPayment)) ∧
    (∃ r2, onNewReceivedPayment envOkAll { paymentRequest := [9] } = .ok r2 ∧
      r2.typ = (if (decodePaymentRequestCore [] 0).transferRequest
                then paymentType.depositPayment else paymentType.receivedPayment)) :=
  c2_classification envOkAll { routingNodePubKey := [3] } { paymentHash := [2] }
    { paymentRequest := [9] } [9] {} {} rfl (by decide) rfl (by decide) rfl

theorem syncLoop_filter (env : LnEnv) (cfg : Config) (t : Int) :
    ∀ (l : List LnPayment) (acc : List paymentInfo),
      syncSentPaymentsLoop env cfg t l acc =
        syncSentPaymentsLoop env cfg t (l.filter (fun i => decide (t < i.creationDate))) acc := by
  intro l
  induction l with
  | nil => intro acc; rfl
  | cons item rest ih =>
    intro acc
    by_cases hd : item.creationDate ≤ t
    · rw [List.filter_cons_of_neg (by simp; omega)]
      simp only [syncSentPaymentsLoop, if_pos hd]
      exact ih acc
    · rw [List.filter_cons_of_pos (by simp; omega)]
      simp only [syncSentPaymentsLoop, if_neg hd]
      cases onNewSentPayment env cfg item with
      | ok r => exact ih (acc ++ [r])
      | err e => exact ih acc
      | nilDeref => rfl

/-- **C3** — The synchronizer filters the fetched ledger to items with
`creationDate` strictly greater than the stored cursor (equal timestamps are
skipped), so a re-run in which every item is at or before the cursor
persists zero records. -/
theorem c3_sync_filter (env : LnEnv) (cfg : Config) (lastPaymentTime : Int)
    (items : List LnPayment) (hlist : env.listPayments = .ok items) :
    syncSentPayments env cfg lastPaymentTime =
      syncSentPaymentsLoop env cfg lastPaymentTime
        (items.filter (fun i => decide (lastPaymentTime < i.creationDate))) [] ∧
    ((∀ i ∈ items, i.creationDate ≤ lastPaymentTime) →
      syncSentPayments env cfg lastPaymentTime = .ok []) := by
  constructor
  · unfold syncSentPayments
    rw [hlist]
    exact syncLoop_filter env cfg lastPaymentTime items []
  · intro hall
    have hnil : items.filter (fun i => decide (lastPaymentTime < i.creationDate)) = [] := by
      rw [List.filter_eq_nil_iff]
      intro a ha
      have := hall a ha
      simp
      omega
    unfold syncSentPayments
    rw [hlist]
    show syncSentPaymentsLoop env cfg lastPaymentTime items [] = .ok []
    rw [syncLoop_filter env cfg lastPaymentTime items [], hnil]
    rfl

theorem c3_sync_filter_witness :
    syncSentPayments envOkAll {} 0 = .ok [] :=
  (c3_sync_filter envOkAll {} 0 [] rfl).2 (by simp)

/-- **C5 (amended)** — An RPC failure in the initial ledger fetch aborts the
pass; an RPC failure while processing an individual item only causes that
item to be skipped (its error is discarded, payments.go:283) and the loop
continues with the remaining items, earlier persisted records standing. -/
theorem c5_item_failure_skipped (env : LnEnv) (cfg : Config) (cursor : Int) (e : String)
    (item : LnPayment) (rest : List LnPayment) (acc : List paymentInfo)
    (hfail : onNewSentPayment env cfg item = .err e)
    (hnew : cursor < item.creationDate) :
    (∀ e2, env.listPayments = .error e2 → syncSentPayments env cfg cursor = .err e2) ∧
    syncSentPaymentsLoop env cfg cursor (item :: rest) acc =
      syncSentPaymentsLoop env cfg cursor rest acc := by
  constructor
  · intro e2 h
    unfold syncSentPayments
    rw [h]
  · simp only [syncSentPaymentsLoop, hfail]
    split <;> rfl

/-- **C5 (counterexample)** — With the cursor at 0, the first ledger item
fails its payment-request lookup, yet the pass continues: the second item is
still processed and persisted, contradicting the claim that no item after
the failing one is processed. -/
theorem c5_counterexample :
    onNewSentPayment envC5 { routingNodePubKey := [3] }
      { paymentHash := [1], value := 10, creationDate := 5 } = .err "rpc" ∧
    syncSentPayments envC5 { routingNodePubKey := [3] } 0 =
      .ok [{ typ := paymentType.sentPayment, Amount := 20, CreationTimestamp := 6,
             PaymentHash := [8], Destination := [7] }] := by
  constructor
  · decide
  · decide

/-- Extract the pending-expiry field of any successful `createPendingPayment`
run: it is always `now` plus the wrapped-arithmetic offset, floored to
seconds. -/
theorem createPendingPayment_expiry (env : LnEnv) (htlc : HTLC) (cur : Nat)
    (nowNanos : Int) (p : paymentInfo)
    (hrun : createPendingPayment env htlc cur nowNanos = .ok p) :
    p.PendingExpirationTimestamp =
      (nowNanos + pendingOffsetNanos htlc.expirationHeight cur) / 1000000000 := by
  unfold createPendingPayment at hrun
  cases hpr : resolvePayReq env htlc with
  | error e => rw [hpr] at hrun; cases hrun
  | ok paymentRequest =>
    rw [hpr] at hrun
    dsimp only at hrun
    split at hrun
    · cases hdq : env.decodePayReq paymentRequest with
      | error e => rw [hdq] at hrun; cases hrun
      | ok decodedReq =>
        rw [hdq] at hrun
        dsimp only at hrun
        cases hdm : DecodePaymentRequest env paymentRequest with
        | error e => rw [hdm] at hrun; cases hrun
        | ok invoiceMemo =>
          rw [hdm] at hrun
          cases hrun
          rfl
    · cases hrun
      rfl

/-- **C4 (amended)** — For every successful pending-payment computation the
expiry timestamp is `now` plus the Go-wrapping offset
`uint32((exp - cur) * 10)` minutes in wrapping `int64` nanoseconds.  When
the HTLC has not yet expired and no wrap occurs this equals
`(exp - cur) * 10` minutes exactly (the spec example 100 → 106 gives 60
minutes).  When the HTLC has already passed its expiration height no error
is returned and for deficits of up to 14444987 blocks the offset is indeed
negative (in the past), but not beyond (see the counterexample). -/
theorem c4_pending_expiry (env : LnEnv) (htlc : HTLC) (cur : Nat) (nowNanos : Int)
    (p : paymentInfo)
    (hrun : createPendingPayment env htlc cur nowNanos = .ok p) :
    p.PendingExpirationTimestamp =
      (nowNanos + pendingOffsetNanos htlc.expirationHeight cur) / 1000000000 ∧
    (∀ d : Nat, cur + d = htlc.expirationHeight → d * 600000000000 < 9223372036854775808 →
      pendingOffsetNanos htlc.expirationHeight cur = d * 600000000000) ∧
    (∀ e c : Nat, c < 4294967296 → e < c → c - e ≤ 14444987 →
      pendingOffsetNanos e c < 0) := by
  refine ⟨createPendingPayment_expiry env htlc cur nowNanos p hrun, ?_, ?_⟩
  · intro d hd hbound
    rw [← hd]
    have hm : minutesToExpireU32 (cur + d) cur = d * 10 := by
      unfold minutesToExpireU32
      omega
    unfold pendingOffsetNanos wrap64
    rw [hm]
    push_cast
    omega
  · intro e c hc he hk
    have hm2 : ((minutesToExpireU32 e c : Nat) : Int) = 4294967296 - 10 * ((c : Int) - (e : Int)) := by
      unfold minutesToExpireU32
      omega
    unfold pendingOffsetNanos wrap64
    rw [hm2]
    have hk1 : (1 : Int) ≤ (c : Int) - (e : Int) := by omega
    have hk2 : (c : Int) - (e : Int) ≤ 14444987 := by omega
    have heq : (4294967296 - 10 * ((c : Int) - (e : Int))) * 60000000000 + 9223372036854775808
        = (8666992764921053184 - 600000000000 * ((c : Int) - (e : Int)))
          + 18446744073709551616 * 14 := by ring
    rw [heq, Int.add_mul_emod_self_left]
    have hsmall : (8666992764921053184 - 600000000000 * ((c : Int) - (e : Int)))
        % 18446744073709551616
        = 8666992764921053184 - 600000000000 * ((c : Int) - (e : Int)) :=
      Int.emod_eq_of_lt (by omega) (by omega)
    rw [hsmall]
    omega

theorem c4_pending_expiry_witness :
    pendingOffsetNanos 106 100 = 6 * 600000000000 :=
  (c4_pending_expiry envPending { incoming := true, expirationHeight := 106 } 100 0
    { typ := paymentType.receivedPayment, PendingExpirationHeight := 106,
      PendingExpirationTimestamp := 3600 } (by decide)).2.1 6 (by decide) (by decide)

/-- **C4 (counterexample)** — An HTLC 14444988 blocks past its expiration
height: the Go `uint32` subtraction wraps and the `int64` nanosecond product
overflows to a POSITIVE offset, so the computed expiry (now = 0) lies about
292 years in the FUTURE, not in the past as the claim states. -/
theorem c4_counterexample :
    (0 : Nat) < 14444988 ∧
    createPendingPayment envPending { incoming := true, expirationHeight := 0 } 14444988 0 =
      .ok { typ := paymentType.receivedPayment, PendingExpirationHeight := 0,
            PendingExpirationTimestamp := 9223372001 } ∧
    (0 : Int) < 9223372001 := by
  refine ⟨by decide, by decide, by decide⟩

/-- **C6** — Every list returned by `GetPayments` is sorted by creation
timestamp descending: every adjacent pair (A, B) satisfies
`A.creationTimestamp ≥ B.creationTimestamp`. -/
theorem c6_sorted (env : LnEnv) (daemonReady : Bool) (nowNanos : Int)
    (persisted : List paymentInfo) (l : List DataPayment)
    (h : GetPayments env daemonReady nowNanos persisted = .ok l) :
    l.Chain' (fun a b => b.creationTimestamp ≤ a.creationTimestamp) := by
  unfold GetPayments at h
  split at h
  · cases h
  · rename_i pending hp
    cases h
    have hs := @List.sorted_mergeSort DataPayment
      (fun i j => decide (j.creationTimestamp ≤ i.creationTimestamp))
      (fun a b c h₁ h₂ => by simp_all; omega)
      (fun a b => by simp [le_total])
      ((persisted ++ pending).map toDataPayment)
    have hc := hs.chain'
    exact hc.imp (fun {a b} hh => by simpa using hh)

theorem c6_sorted_witness :
    List.Chain' (fun a b : DataPayment => b.creationTimestamp ≤ a.creationTimestamp) [] :=
  c6_sorted envPending false 0 [] [] (by simp [GetPayments, getPendingPayments])

theorem resolvePendingList_not_ok (env : LnEnv) (height : Nat) (nowNanos : Int) :
    ∀ l : List HTLC,
      (∃ htlc ∈ l, ∀ p, createPendingPayment env htlc height nowNanos ≠ .ok p) →
      ∀ res, resolvePendingList env height nowNanos l ≠ .ok res := by
  intro l
  induction l with
  | nil => rintro ⟨x, hx, -⟩ _; cases hx
  | cons a tl ih =>
    rintro ⟨x, hx, hfx⟩ res h
    unfold resolvePendingList at h
    rcases List.mem_cons.mp hx with rfl | hxtl
    · cases hcp : createPendingPayment env x height nowNanos with
      | error e => rw [hcp] at h; cases h
      | ok p => exact hfx p hcp
    · cases hcp : createPendingPayment env a height nowNanos with
      | error e => rw [hcp] at h; cases h
      | ok p =>
        rw [hcp] at h
        dsimp only at h
        cases hrl : resolvePendingList env height nowNanos tl with
        | error e => rw [hrl] at h; cases h
        | ok ps => exact ih ⟨x, hxtl, hfx⟩ ps hrl

/-- **C7** — When the daemon is not ready the pending resolver returns an
empty set and no error, whatever the node would answer; and when it runs,
a lookup failure for any single HTLC makes the whole call fail (no partial
list is ever returned). -/
theorem c7_pending_resolver (env : LnEnv) (nowNanos : Int) (channels : List LnChannel)
    (info : ChainInfo)
    (hch : env.listChannels = .ok channels) (hinfo : env.getInfo = .ok info)
    (hbad : ∃ htlc ∈ (channels.map (·.pendingHtlcs)).flatten,
      ∀ p, createPendingPayment env htlc info.blockHeight nowNanos ≠ .ok p) :
    (∀ env2 : LnEnv, getPendingPayments env2 false nowNanos = .ok []) ∧
    ∀ res, getPendingPayments env true nowNanos ≠ .ok res := by
  constructor
  · intro env2
    rfl
  · intro res h
    unfold getPendingPayments at h
    rw [if_pos rfl, hch] at h
    dsimp only at h
    rw [hinfo] at h
    exact resolvePendingList_not_ok env info.blockHeight nowNanos _ hbad res h

theorem c7_pending_resolver_witness :
    getPendingPayments envPending false 0 = .ok [] :=
  (c7_pending_resolver envC7 0 [{ pendingHtlcs := [{ incoming := true, hashLock := [1] }] }]
    {} rfl rfl ⟨{ incoming := true, hashLock := [1] }, by simp,
      fun p hp => by cases hp⟩).1 envPending

/-- **C8** — Memo round trip on the structured path: for every valid memo
(`int64` fields in range) the decode of the encode is the memo itself, and
the successful structured-decode branch of `DecodePaymentRequest` returns
the unmarshalled memo unchanged (in particular its amount is not overwritten
by the invoice amount). -/
theorem c8_memo_roundtrip (m : InvoiceMemo) (numSatoshis : Int)
    (ha1 : -9223372036854775808 ≤ m.amount) (ha2 : m.amount < 9223372036854775808)
    (he1 : -9223372036854775808 ≤ m.expiry) (he2 : m.expiry < 9223372036854775808) :
    protoUnmarshalInvoiceMemo (protoMarshalInvoiceMemo m) = some m ∧
    decodePaymentRequestCore (protoMarshalInvoiceMemo m) numSatoshis = m := by
  have h := protoRoundTrip m ha1 ha2 he1 he2
  refine ⟨h, ?_⟩
  unfold decodePaymentRequestCore
  rw [h]

theorem c8_memo_roundtrip_witness :
    protoUnmarshalInvoiceMemo
      (protoMarshalInvoiceMemo
        { description := [104, 105], amount := 1000, payeeName := [66],
          payeeImageURL := [117], payerName := [112], payerImageURL := [113],
          transferRequest := true, expiry := -7 }) =
      some { description := [104, 105], amount := 1000, payeeName := [66],
             payeeImageURL := [117], payerName := [112], payerImageURL := [113],
             transferRequest := true, expiry := -7 } :=
  (c8_memo_roundtrip
    { description := [104, 105], amount := 1000, payeeName := [66],
      payeeImageURL := [117], payerName := [112], payerImageURL := [113],
      transferRequest := true, expiry := -7 } 0
    (by decide) (by decide) (by decide) (by decide)).1

/-- **C9** — A settled invoice event with an empty payment-request text makes
`onNewReceivedPayment` dereference the never-assigned nil memo pointer (a
crash, returning neither a record nor an error), for every environment; with
a non-empty payment request the nil dereference cannot happen. -/
theorem c9_nil_memo_deref (env : LnEnv) (invoice : LnInvoice) :
    (invoice.paymentRequest = [] → onNewReceivedPayment env invoice = .nilDeref) ∧
    (invoice.paymentRequest ≠ [] → onNewReceivedPayment env invoice ≠ .nilDeref) := by
  constructor
  · intro h
    unfold onNewReceivedPayment
    rw [h]
    rfl
  · intro h hcontra
    unfold onNewReceivedPayment at hcontra
    rw [if_pos (List.length_pos.mpr h)] at hcontra
    cases hd : DecodePaymentRequest env invoice.paymentRequest with
    | error e => rw [hd] at hcontra; cases hcontra
    | ok memo => rw [hd] at hcontra; cases hcontra

theorem c9_nil_memo_deref_witness :
    onNewReceivedPayment envPending { paymentRequest := [], amtPaidSat := 5 } = .nilDeref :=
  (c9_nil_memo_deref envPending { paymentRequest := [], amtPaidSat := 5 }).1 rfl

/-- **C10** — `GetRelatedInvoice` applies no fallback: whenever the decoded
description is not a valid structured memo encoding, it returns the
unmarshal error and never an invoice. -/
theorem c10_no_fallback (env : LnEnv) (paymentRequest : GoStr) (dr : PayReq)
    (h1 : env.decodePayReq paymentRequest = .ok dr)
    (h2 : protoUnmarshalInvoiceMemo dr.description = none) :
    GetRelatedInvoice env paymentRequest = .error protoUnmarshalErrMsg ∧
    ∀ inv, GetRelatedInvoice env paymentRequest ≠ .ok inv := by
  have hres : GetRelatedInvoice env paymentRequest = .error protoUnmarshalErrMsg := by
    unfold GetRelatedInvoice
    rw [h1]
    dsimp only
    rw [h2]
  exact ⟨hres, fun inv h => by rw [hres] at h; cases h⟩

theorem c10_no_fallback_witness :
    GetRelatedInvoice envLegacyDesc [1] = .error protoUnmarshalErrMsg :=
  (c10_no_fallback envLegacyDesc [1] { description := strBarBar } rfl (by decide)).1

theorem c5_item_failure_skipped_witness :
    syncSentPaymentsLoop envC5 { routingNodePubKey := [3] } 0
        [{ paymentHash := [1], value := 10, creationDate := 5 }] [] =
      syncSentPaymentsLoop envC5 { routingNodePubKey := [3] } 0 [] [] :=
  (c5_item_failure_skipped envC5 { routingNodePubKey := [3] } 0 "rpc"
    { paymentHash := [1], value := 10, creationDate := 5 } [] []
    (by decide) (by decide)).2
